import Mathlib

/-!
# call-api: the datagram event hub (`pkg/event/datagram.go`)

A shallow embedding of `EventDatagramSub`, `EventDatagramConn` and
`EventDatagram`.  Go objects reached through pointers live in a heap: an
object's address is its index in the heap list, allocation appends, and a
pointer that names no object behaves like Go's `nil` (dereferencing it is a
run-time panic).  A run-time panic ends the call and is reported together with
the state the program had reached by then.

The outcomes of the external collaborators are inputs of the model: whether the
network set-up in `EventDatagramConn.Init` works, whether `mi.CallSync`
returns an error, and what `udp.ReadFrom` plus the JSON-RPC decoder deliver.

Calls of `Subscribe` and `Unsubscribe` follow one another (they do not
overlap); between two of them the receive loop of any live connection may run
an iteration.  Locks, logging and socket options have no counterpart here,
except that a log line whose argument evaluates `conn.String()` keeps that
evaluation, since it dereferences `conn.udp`.
-/

namespace Event

/-- Go run-time panics that the code of `datagram.go` can raise. -/
inductive Panic where
  | nilDeref
  | closeOfClosed
  | closeOfNil
deriving DecidableEq, Repr

/-- State of a Go channel that is only ever made and closed (`conn.wake`). -/
inductive Chan where
  | nil
  | made
  | closed
deriving DecidableEq, Repr

/-- Go's `close(ch)`: panics on a nil channel and on a channel closed before. -/
def Chan.close : Chan → Except Panic Chan
  | .nil => .error .closeOfNil
  | .made => .ok .closed
  | .closed => .error .closeOfClosed

/-- Source `type EventDatagramSub struct`; `conn` is the address of the owning
connection, `notify` a handle for the callback. -/
structure EventDatagramSub where
  event : String
  conn : Nat
  notify : Nat
  subscribed : Bool
deriving DecidableEq, Repr

/-- Source `type EventDatagramConn struct`; `udp` and `handler` record whether the
pointer field is set, `subs` holds the addresses of the subscriptions. -/
structure EventDatagramConn where
  udp : Bool
  wake : Chan
  subs : List Nat
  handler : Bool
deriving DecidableEq, Repr

/-- One `mi.CallSync("event_subscribe", {event, socket, expire})` invocation;
the socket is the identity of the connection, named by its address. -/
structure MiCall where
  method : String
  event : String
  socket : Nat
  expire : Nat
deriving DecidableEq, Repr

/-- Source `type EventDatagram struct`: `mi` is the log of the calls issued on the
control-plane handle (oldest first), `conns` the slice of connection
pointers. -/
structure EventDatagram where
  mi : List MiCall
  conns : List Nat
deriving DecidableEq, Repr

/-- The program state: both heaps, the hub, and the connections whose
`waitForEvents` goroutine is alive. -/
structure World where
  subObjs : List EventDatagramSub
  connObjs : List EventDatagramConn
  event : EventDatagram
  loops : List Nat
deriving DecidableEq, Repr

/-- How a call ends: it returns a value, or it panics; both carry the state. -/
inductive Exit (α : Type) where
  | ret (w : World) (v : α)
  | panic (w : World) (p : Panic)
deriving Repr

/-- The state at the end of the call. -/
def Exit.world {α : Type} : Exit α → World
  | .ret w _ => w
  | .panic w _ => w

/-- Whether the call returned to its caller. -/
def Exit.returned {α : Type} : Exit α → Bool
  | .ret _ _ => true
  | .panic _ _ => false

/-- The value handed back, if the call returned. -/
def Exit.value {α : Type} : Exit α → Option α
  | .ret _ v => some v
  | .panic _ _ => none

/-- The panic that ended the call, if it did not return. -/
def Exit.panicKind {α : Type} : Exit α → Option Panic
  | .ret _ _ => none
  | .panic _ p => some p

/-- Dereference a subscription pointer. -/
def World.sub? (w : World) (p : Nat) : Option EventDatagramSub := w.subObjs[p]?

/-- Dereference a connection pointer. -/
def World.conn? (w : World) (c : Nat) : Option EventDatagramConn := w.connObjs[c]?

/-- Store into the subscription object at address `p`. -/
def World.setSub (w : World) (p : Nat) (s : EventDatagramSub) : World :=
  { w with subObjs := w.subObjs.set p s }

/-- Store into the connection object at address `c`. -/
def World.setConn (w : World) (c : Nat) (co : EventDatagramConn) : World :=
  { w with connObjs := w.connObjs.set c co }

/-- Append a call to the log of the control-plane handle. -/
def World.callSync (w : World) (call : MiCall) : World :=
  { w with event := { w.event with mi := w.event.mi ++ [call] } }

/-- The hub built by `EventHandler(mi)` / `EventDatagram.Init`: an empty connection slice, no
objects allocated, no call issued. -/
def World.init : World :=
  { subObjs := [], connObjs := [], event := { mi := [], conns := [] }, loops := [] }

/-- Source `func (sub *EventDatagramSub) IsSubscribed() bool`. -/
def IsSubscribed (w : World) (sub : Nat) : Option Bool :=
  (w.sub? sub).map (fun s => s.subscribed)

/-- Source `func (conn *EventDatagramConn) String() string`: needs `conn.udp`; the
string is represented by the address of the connection. -/
def connString (w : World) (conn : Nat) : Except Panic Nat :=
  match w.conn? conn with
  | none => .error .nilDeref
  | some c => if c.udp then .ok conn else .error .nilDeref

/-- The loop of `getSubscription`: `for _, subs = range conn.subs` assigns the
variable declared before the loop, so `subs` keeps the element of the last
iteration when the loop ends without `break`. -/
def getSubscriptionLoop (w : World) (event : String) :
    List Nat → Option Nat → Except Panic (Option Nat)
  | [], subs => .ok subs
  | p :: rest, _ =>
    match w.sub? p with
    | none => .error .nilDeref
    | some s =>
      if s.event = event then .ok (some p)
      else getSubscriptionLoop w event rest (some p)

/-- Source `func (conn *EventDatagramConn) getSubscription(event string) *EventDatagramSub`. -/
def getSubscription (w : World) (conn : Nat) (event : String) : Except Panic (Option Nat) :=
  match w.conn? conn with
  | none => .error .nilDeref
  | some c => getSubscriptionLoop w event c.subs none

/-- The loop `for i, s := range xs { if s == x { xs = append(xs[0:i], xs[i+1:]...); break } }`
used by `Unsubscribe` and `RemoveConn`: drops the first element identical to `x`. -/
def removeFirst (x : Nat) : List Nat → List Nat
  | [] => []
  | y :: rest => if y = x then rest else y :: removeFirst x rest

/-- Source `func (conn *EventDatagramConn) Unsubscribe(sub *EventDatagramSub)`;
`callOk` is the outcome of the `CallSync` it may issue. -/
def EventDatagramConn.Unsubscribe (w : World) (conn sub : Nat) (callOk : Bool) : Exit Unit :=
  match w.conn? conn with
  | none => .panic w .nilDeref
  | some c =>
    -- first remove it from list
    let c1 : EventDatagramConn := { c with subs := removeFirst sub c.subs }
    -- if len(conn.subs) == 0 { logrus.Info("closing connection " + conn.String()); close(conn.wake) }
    let closing : Except Panic EventDatagramConn :=
      if c1.subs.length = 0 then
        if c1.udp then
          match c1.wake.close with
          | .ok ch => .ok { c1 with wake := ch }
          | .error p => .error p
        else .error .nilDeref
      else .ok c1
    match closing with
    | .error p => .panic (w.setConn conn c1) p
    | .ok c2 =>
      let w2 := w.setConn conn c2
      match w2.sub? sub with
      | none => .panic w2 .nilDeref
      | some s =>
        -- if !sub.IsSubscribed() { return }
        if !s.subscribed then .ret w2 ()
        else
          -- "socket": sub.String()
          match connString w2 s.conn with
          | .error p => .panic w2 p
          | .ok sock =>
            -- conn.handler.mi.CallSync("event_subscribe", &eviParams)
            if c2.handler then
              let w3 := w2.callSync
                { method := "event_subscribe", event := s.event, socket := sock, expire := 0 }
              -- if err != nil { logrus.Error(...) } else { sub.setUnsubscribed() }
              if callOk then .ret (w3.setSub sub { s with subscribed := false }) ()
              else .ret w3 ()
            else .panic w2 .nilDeref

/-- Source `func (sub *EventDatagramSub) Unsubscribe()`: logs `sub.conn.String()` and
forwards to the owning connection. -/
def Unsubscribe (w : World) (sub : Nat) (callOk : Bool) : Exit Unit :=
  match w.sub? sub with
  | none => .panic w .nilDeref
  | some s =>
    match connString w s.conn with
    | .error p => .panic w p
    | .ok _ => EventDatagramConn.Unsubscribe w s.conn sub callOk

/-- Source `func (conn *EventDatagramConn) Init(event *EventDatagram) *EventDatagramConn`;
`netOk` says whether the MI address is UDP and dialling and binding work.  On
failure it returns nil before any field is assigned; on success it fills the
fields, starts `waitForEvents` and returns `conn`. -/
def EventDatagramConn.Init (w : World) (conn : Nat) (netOk : Bool) : Exit (Option Nat) :=
  if netOk then
    match w.conn? conn with
    | none => .panic w .nilDeref
    | some c =>
      .ret { w.setConn conn { c with subs := [], wake := .made, udp := true, handler := true } with
              loops := w.loops ++ [conn] } (some conn)
  else .ret w none

/-- The loop at the top of `Subscribe`: `for _, conn = range event.conns` assigns
the variable declared before the loop, so `conn` keeps the element of the last
iteration when the loop ends without `break`. -/
def subscribeScan (w : World) (ev : String) :
    List Nat → Option Nat → Except Panic (Option Nat)
  | [], conn => .ok conn
  | c :: rest, _ =>
    match getSubscription w c ev with
    | .error p => .error p
    | .ok none => .ok (some c)
    | .ok (some _) => subscribeScan w ev rest (some c)

/-- The `if conn == nil { ... }` block of `Subscribe`, up to the append:
`conn = &EventDatagramConn{}` allocates a zero connection, `conn.Init(event)`
is a statement whose result is dropped, so the `if conn == nil { return nil }`
after it never fires, and `event.conns = append(event.conns, conn)` follows.
The value is `conn`. -/
def subscribeNewConn (w : World) (netOk : Bool) : Exit Nat :=
  let conn := w.connObjs.length
  let w0 : World :=
    { w with connObjs := w.connObjs ++ [{ udp := false, wake := .nil, subs := [], handler := false }] }
  match EventDatagramConn.Init w0 conn netOk with
  | .panic w1 p => .panic w1 p
  | .ret w1 _ => .ret { w1 with event := { w1.event with conns := w1.event.conns ++ [conn] } } conn

/-- The part of `Subscribe` after a connection has been chosen: allocate the
subscription, append it to `conn.subs`, issue the `CallSync`, and either mark
the subscription subscribed and return it, or unsubscribe it and return nil. -/
def subscribeOn (w : World) (conn : Nat) (ev : String) (notify : Nat) (callOk : Bool) :
    Exit (Option Nat) :=
  -- sub := &EventDatagramSub{conn: conn, event: ev, notify: notify}
  let sub := w.subObjs.length
  let w2 : World :=
    { w with subObjs := w.subObjs ++
        [{ event := ev, conn := conn, notify := notify, subscribed := false }] }
  -- conn.subs = append(conn.subs, sub)
  match w2.conn? conn with
  | none => .panic w2 .nilDeref
  | some c =>
    let w3 := w2.setConn conn { c with subs := c.subs ++ [sub] }
    -- logrus.Debug("subscribing for " + sub.Event() + " on " + sub.String())
    match connString w3 conn with
    | .error p => .panic w3 p
    | .ok sock =>
      let w4 := w3.callSync
        { method := "event_subscribe", event := ev, socket := sock, expire := 120 }
      if callOk then
        -- sub.setSubscribed()
        .ret (w4.setSub sub { event := ev, conn := conn, notify := notify, subscribed := true })
          (some sub)
      else
        -- sub.Unsubscribe(); return nil
        match Unsubscribe w4 sub callOk with
        | .ret w5 _ => .ret w5 none
        | .panic w5 p => .panic w5 p

/-- Source `func (event *EventDatagram) Subscribe(ev string, notify EventNotification) Subscription`;
`netOk` is the outcome of the network set-up of a new connection, `callOk`
that of the `CallSync`.  The value is the new subscription, or nil. -/
def Subscribe (w : World) (ev : String) (notify : Nat) (netOk callOk : Bool) : Exit (Option Nat) :=
  match subscribeScan w ev w.event.conns none with
  | .error p => .panic w p
  | .ok (some c) => subscribeOn w c ev notify callOk
  | .ok none =>
    -- if conn == nil { ... }
    match subscribeNewConn w netOk with
    | .panic w1 p => .panic w1 p
    | .ret w1 conn => subscribeOn w1 conn ev notify callOk

/-- Source `func (event *EventDatagram) RemoveConn(conn *EventDatagramConn)`; the log
line inside the `if` evaluates `conn.String()`. -/
def RemoveConn (w : World) (conn : Nat) : Exit Unit :=
  if conn ∈ w.event.conns then
    match connString w conn with
    | .error p => .panic w p
    | .ok _ =>
      .ret { w with event := { w.event with conns := removeFirst conn w.event.conns } } ()
  else .ret w ()

/-- What `udp.ReadFrom` followed by `JsonRPCNotification.Parse` delivers. -/
inductive Datagram where
  | readError
  | parseError
  | notification (method : String)
deriving DecidableEq, Repr

/-- What one iteration of the receive loop did. -/
inductive LoopEffect where
  | stopped
  | readFailed
  | parseFailed
  | notified (sub : Nat) (method : String)
  | unknownSubscriber (method : String)
deriving DecidableEq, Repr

/-- One iteration of the `for { select { ... } }` of `waitForEvents`: when
`conn.wake` is closed the loop calls `RemoveConn` and ends; otherwise it reads
one datagram and, when it parses, starts the callback of what
`getSubscription(result.Method)` returned, or warns when that is nil.  The
check of the signal and the read are one step here; in the program the read
blocks between them until a datagram arrives. -/
def waitForEvents (w : World) (conn : Nat) (dg : Datagram) : Exit LoopEffect :=
  match w.conn? conn with
  | none => .panic w .nilDeref
  | some c =>
    if c.wake = .closed then
      if c.handler then
        match RemoveConn w conn with
        | .ret w1 _ => .ret { w1 with loops := removeFirst conn w1.loops } .stopped
        | .panic w1 p => .panic w1 p
      else .panic w .nilDeref
    else
      match dg with
      | .readError => .ret w .readFailed
      | .parseError => .ret w .parseFailed
      | .notification method =>
        match getSubscription w conn method with
        | .error p => .panic w p
        | .ok (some sub) => .ret w (.notified sub method)
        | .ok none => .ret w (.unknownSubscriber method)

/-- The calls that reach the hub: the application subscribes and unsubscribes,
and the receive loop of a connection runs an iteration. -/
inductive Op where
  | subscribe (ev : String) (notify : Nat) (netOk callOk : Bool)
  | unsubscribe (sub : Nat) (callOk : Bool)
  | receive (conn : Nat) (dg : Datagram)
deriving DecidableEq, Repr

/-- Run one call; the state and whether the call came back.  A receive-loop
iteration of a connection whose goroutine is not alive does nothing. -/
def step (w : World) : Op → World × Bool
  | .subscribe ev notify netOk callOk =>
    let e := Subscribe w ev notify netOk callOk
    (e.world, e.returned)
  | .unsubscribe sub callOk =>
    let e := Unsubscribe w sub callOk
    (e.world, e.returned)
  | .receive conn dg =>
    if conn ∈ w.loops then
      let e := waitForEvents w conn dg
      (e.world, e.returned)
    else (w, true)

/-- Run a sequence of calls from `w`, stopping at the first panic: the state
reached, and whether every call returned. -/
def run (w : World) : List Op → World × Bool
  | [] => (w, true)
  | op :: rest =>
    match step w op with
    | (w1, true) => run w1 rest
    | (w1, false) => (w1, false)

/-- The states of a running program: what `EventHandler` builds, and what any
call that returns leaves behind. -/
inductive Reachable : World → Prop where
  | init : Reachable World.init
  | step {w : World} (op : Op) (before : Reachable w) (back : (step w op).2 = true) :
      Reachable (step w op).1

/-- The state after running `ops` on a freshly initialised hub. -/
def afterOps (ops : List Op) : World := (run World.init ops).1

/-- The event names of the subscriptions in the list of connection `conn`, in
list order. -/
def connEvents (w : World) (conn : Nat) : List String :=
  match w.conn? conn with
  | none => []
  | some c => c.subs.filterMap (fun p => (w.sub? p).map (fun s => s.event))

/-- The connection a subscription is attached to (`sub.conn`). -/
def connOf (w : World) (sub : Nat) : Option Nat :=
  (w.sub? sub).map (fun s => s.conn)

/-- The state of the cancellation signal of connection `conn`. -/
def wakeOf (w : World) (conn : Nat) : Option Chan :=
  (w.conn? conn).map (fun c => c.wake)

/-- The subscription list of connection `conn`. -/
def subsOf (w : World) (conn : Nat) : Option (List Nat) :=
  (w.conn? conn).map (fun c => c.subs)

/-- What `conn.Unsubscribe(sub)` leaves in the connection object when it gets
past the `close`: the list without `sub`, the signal closed if the list is
empty. -/
def afterRemoval (c : EventDatagramConn) (sub : Nat) : EventDatagramConn :=
  { c with
    subs := removeFirst sub c.subs
    wake := if removeFirst sub c.subs = [] then .closed else c.wake }

/-- The unsubscribe call recorded on the control-plane handle. -/
def unsubscribeCall (s : EventDatagramSub) : MiCall :=
  { method := "event_subscribe", event := s.event, socket := s.conn, expire := 0 }

/-- The shape of the heap in every state of a running program: connection
objects are initialised, a connection's list holds no pointer twice, every
pointer in it names a subscription whose `conn` is that connection, and every
subscription's `conn` names a connection object. -/
structure WellFormed (w : World) : Prop where
  connInit : ∀ c co, w.conn? c = some co → co.udp = true ∧ co.handler = true ∧ co.wake ≠ .nil
  subsNodup : ∀ c co, w.conn? c = some co → co.subs.Nodup
  subsOwned : ∀ c co, w.conn? c = some co → ∀ p ∈ co.subs, ∃ s, w.sub? p = some s ∧ s.conn = c
  subConn : ∀ p s, w.sub? p = some s → s.conn < w.connObjs.length

/-- The state of `Subscribe` right after `conn.subs = append(conn.subs, sub)`. -/
def attached (w : World) (conn : Nat) (c : EventDatagramConn) (s : EventDatagramSub) : World :=
  ({ w with subObjs := w.subObjs ++ [s] } : World).setConn conn
    { c with subs := c.subs ++ [w.subObjs.length] }

/-! ## Heap lemmas -/

theorem removeFirst_eq_erase (x : Nat) (l : List Nat) : removeFirst x l = l.erase x := by
  induction l with
  | nil => rfl
  | cons y rest ih =>
    by_cases h : y = x
    · simp [removeFirst, h]
    · simp [removeFirst, h, ih, List.erase_cons_tail]

theorem conn?_setConn (w : World) (c d : Nat) (co : EventDatagramConn) :
    (w.setConn c co).conn? d =
      if c = d then (if c < w.connObjs.length then some co else none) else w.conn? d := by
  simp [World.setConn, World.conn?, List.getElem?_set]

theorem sub?_setConn (w : World) (c p : Nat) (co : EventDatagramConn) :
    (w.setConn c co).sub? p = w.sub? p := rfl

theorem sub?_setSub (w : World) (p q : Nat) (s : EventDatagramSub) :
    (w.setSub p s).sub? q =
      if p = q then (if p < w.subObjs.length then some s else none) else w.sub? q := by
  simp [World.setSub, World.sub?, List.getElem?_set]

theorem conn?_setSub (w : World) (p c : Nat) (s : EventDatagramSub) :
    (w.setSub p s).conn? c = w.conn? c := rfl

theorem conn?_callSync (w : World) (call : MiCall) (c : Nat) :
    (w.callSync call).conn? c = w.conn? c := rfl

theorem sub?_callSync (w : World) (call : MiCall) (p : Nat) :
    (w.callSync call).sub? p = w.sub? p := rfl

theorem conn?_lt (w : World) (c : Nat) (co : EventDatagramConn) (h : w.conn? c = some co) :
    c < w.connObjs.length := by
  simp only [World.conn?] at h
  exact (List.getElem?_eq_some_iff.mp h).1

theorem sub?_lt (w : World) (p : Nat) (s : EventDatagramSub) (h : w.sub? p = some s) :
    p < w.subObjs.length := by
  simp only [World.sub?] at h
  exact (List.getElem?_eq_some_iff.mp h).1

theorem Unsubscribe_eval (w : World) (p : Nat) (s : EventDatagramSub) (c : EventDatagramConn)
    (callOk : Bool) (hs : w.sub? p = some s) (hc : w.conn? s.conn = some c)
    (hu : c.udp = true) (hh : c.handler = true)
    (hok : removeFirst p c.subs ≠ [] ∨ c.wake = .made) :
    Unsubscribe w p callOk =
      if s.subscribed then
        if callOk then
          .ret ((((w.setConn s.conn (afterRemoval c p)).callSync (unsubscribeCall s)).setSub p
            { s with subscribed := false })) ()
        else .ret ((w.setConn s.conn (afterRemoval c p)).callSync (unsubscribeCall s)) ()
      else .ret (w.setConn s.conn (afterRemoval c p)) () := by
  have hlt := conn?_lt w s.conn c hc
  by_cases he : removeFirst p c.subs = []
  · have hw : c.wake = .made := by
      rcases hok with h | h
      · exact absurd he h
      · exact h
    cases hsub : s.subscribed <;> cases callOk <;>
      simp [Unsubscribe, EventDatagramConn.Unsubscribe, connString, hs, hc, hu, hh, he, hw,
        Chan.close, afterRemoval, unsubscribeCall, sub?_setConn, conn?_setConn, hlt, hsub]
  · cases hsub : s.subscribed <;> cases callOk <;>
      simp [Unsubscribe, EventDatagramConn.Unsubscribe, connString, hs, hc, hu, hh, he,
        afterRemoval, unsubscribeCall, sub?_setConn, conn?_setConn, hlt, hsub]

theorem Unsubscribe_panic (w : World) (p : Nat) (s : EventDatagramSub) (c : EventDatagramConn)
    (callOk : Bool) (hs : w.sub? p = some s) (hc : w.conn? s.conn = some c)
    (hu : c.udp = true)
    (he : removeFirst p c.subs = []) (hw : c.wake ≠ .made) :
    Unsubscribe w p callOk =
      .panic (w.setConn s.conn { c with subs := [] })
        (if c.wake = .closed then .closeOfClosed else .closeOfNil) := by
  cases hk : c.wake with
  | made => exact absurd hk hw
  | nil =>
    simp [Unsubscribe, EventDatagramConn.Unsubscribe, connString, hs, hc, hu, he, hk, Chan.close]
  | closed =>
    simp [Unsubscribe, EventDatagramConn.Unsubscribe, connString, hs, hc, hu, he, hk, Chan.close]

/-! ## The heap invariant of a running program -/

theorem wf_init : WellFormed World.init := by
  constructor <;> intro a b h <;> simp [World.init, World.conn?, World.sub?] at h

theorem wf_heaps {w w1 : World} (hs : w1.subObjs = w.subObjs) (hc : w1.connObjs = w.connObjs)
    (h : WellFormed w) : WellFormed w1 := by
  obtain ⟨h1, h2, h3, h4⟩ := h
  constructor
  · intro c co hco
    exact h1 c co (by simpa [World.conn?, hc] using hco)
  · intro c co hco
    exact h2 c co (by simpa [World.conn?, hc] using hco)
  · intro c co hco p hp
    obtain ⟨s, hs1, hs2⟩ := h3 c co (by simpa [World.conn?, hc] using hco) p hp
    exact ⟨s, by simpa [World.sub?, hs] using hs1, hs2⟩
  · intro p s hps
    have := h4 p s (by simpa [World.sub?, hs] using hps)
    simpa [hc] using this

theorem wf_setSub {w : World} (p : Nat) (s s1 : EventDatagramSub) (h : WellFormed w)
    (hs : w.sub? p = some s) (hconn : s1.conn = s.conn) : WellFormed (w.setSub p s1) := by
  have hlt := sub?_lt w p s hs
  constructor
  · intro c co hco
    exact h.connInit c co hco
  · intro c co hco
    exact h.subsNodup c co hco
  · intro c co hco q hq
    obtain ⟨s2, hs2, hs3⟩ := h.subsOwned c co hco q hq
    by_cases hpq : p = q
    · subst hpq
      refine ⟨s1, by simp [sub?_setSub, hlt], ?_⟩
      rw [hs] at hs2
      cases hs2
      rw [hconn, hs3]
    · exact ⟨s2, by simp [sub?_setSub, hpq, hs2], hs3⟩
  · intro q s2 hq
    rw [sub?_setSub] at hq
    by_cases hpq : p = q
    · simp [hpq] at hq
      have hc := h.subConn p s hs
      simp only [World.setSub]
      rw [← hq.2, hconn]
      exact hc
    · simp [hpq] at hq
      exact h.subConn q s2 hq

theorem wf_setConn {w : World} (c : Nat) (co co1 : EventDatagramConn) (h : WellFormed w)
    (hc : w.conn? c = some co) (hu : co1.udp = true) (hh : co1.handler = true)
    (hk : co1.wake ≠ .nil) (hnd : co1.subs.Nodup) (hsub : ∀ q ∈ co1.subs, q ∈ co.subs) :
    WellFormed (w.setConn c co1) := by
  have hlt := conn?_lt w c co hc
  constructor
  · intro d dco hd
    rw [conn?_setConn] at hd
    by_cases hcd : c = d
    · simp [hcd] at hd
      rw [← hd.2]
      exact ⟨hu, hh, hk⟩
    · simp [hcd] at hd
      exact h.connInit d dco hd
  · intro d dco hd
    rw [conn?_setConn] at hd
    by_cases hcd : c = d
    · simp [hcd] at hd
      rw [← hd.2]
      exact hnd
    · simp [hcd] at hd
      exact h.subsNodup d dco hd
  · intro d dco hd q hq
    rw [conn?_setConn] at hd
    by_cases hcd : c = d
    · simp [hcd] at hd
      rw [← hd.2] at hq
      subst hcd
      exact h.subsOwned c co hc q (hsub q hq)
    · simp [hcd] at hd
      exact h.subsOwned d dco hd q hq
  · intro q s hq
    have := h.subConn q s hq
    simpa [World.setConn] using this

theorem sub?_attached (w : World) (conn : Nat) (c : EventDatagramConn) (s : EventDatagramSub)
    (q : Nat) :
    (attached w conn c s).sub? q =
      if q < w.subObjs.length then w.sub? q
      else if q = w.subObjs.length then some s else none := by
  simp only [attached, World.setConn, World.sub?]
  by_cases h1 : q < w.subObjs.length
  · simp [h1, List.getElem?_append_left]
  · by_cases h2 : q = w.subObjs.length
    · simp [h2]
    · have : w.subObjs.length + 1 ≤ q := by omega
      simp [h1, h2, List.getElem?_eq_none, this]

theorem conn?_attached (w : World) (conn : Nat) (c : EventDatagramConn) (s : EventDatagramSub)
    (d : Nat) (hc : w.conn? conn = some c) :
    (attached w conn c s).conn? d =
      if conn = d then some { c with subs := c.subs ++ [w.subObjs.length] } else w.conn? d := by
  have hlt := conn?_lt w conn c hc
  simp only [attached, conn?_setConn]
  by_cases h : conn = d
  · simp [h]
    subst h
    exact hlt
  · simp [h, World.conn?]

theorem wf_attached {w : World} (conn : Nat) (c : EventDatagramConn) (s : EventDatagramSub)
    (h : WellFormed w) (hc : w.conn? conn = some c) (hs : s.conn = conn) :
    WellFormed (attached w conn c s) := by
  have hlt := conn?_lt w conn c hc
  have hfresh : w.subObjs.length ∉ c.subs := by
    intro hmem
    obtain ⟨s1, hs1, _⟩ := h.subsOwned conn c hc _ hmem
    exact absurd (sub?_lt w _ s1 hs1) (lt_irrefl _)
  constructor
  · intro d dco hd
    rw [conn?_attached w conn c s d hc] at hd
    by_cases hcd : conn = d
    · simp [hcd] at hd
      rw [← hd]
      exact h.connInit conn c hc
    · simp [hcd] at hd
      exact h.connInit d dco hd
  · intro d dco hd
    rw [conn?_attached w conn c s d hc] at hd
    by_cases hcd : conn = d
    · simp [hcd] at hd
      rw [← hd]
      have := h.subsNodup conn c hc
      simp [List.nodup_append, this, hfresh]
    · simp [hcd] at hd
      exact h.subsNodup d dco hd
  · intro d dco hd q hq
    rw [conn?_attached w conn c s d hc] at hd
    rw [sub?_attached]
    by_cases hcd : conn = d
    · simp [hcd] at hd
      rw [← hd] at hq
      simp at hq
      rcases hq with hq | hq
      · obtain ⟨s1, hs1, hs2⟩ := h.subsOwned conn c hc q hq
        have := sub?_lt w q s1 hs1
        exact ⟨s1, by simp [this, hs1], by rw [hs2, hcd]⟩
      · exact ⟨s, by simp [hq], by rw [hs, hcd]⟩
    · simp [hcd] at hd
      obtain ⟨s1, hs1, hs2⟩ := h.subsOwned d dco hd q hq
      have := sub?_lt w q s1 hs1
      exact ⟨s1, by simp [this, hs1], hs2⟩
  · intro q s1 hq
    rw [sub?_attached] at hq
    have hlen : (attached w conn c s).connObjs.length = w.connObjs.length := by
      simp [attached, World.setConn]
    rw [hlen]
    by_cases h1 : q < w.subObjs.length
    · simp [h1] at hq
      exact h.subConn q s1 hq
    · by_cases h2 : q = w.subObjs.length
      · simp [h2] at hq
        rw [← hq, hs]
        exact hlt
      · simp [h1, h2] at hq

/-- The state `subscribeNewConn` builds when the network set-up works. -/
theorem subscribeNewConn_ok (w : World) :
    subscribeNewConn w true =
      .ret { w with
          connObjs := w.connObjs ++ [{ udp := true, wake := .made, subs := [], handler := true }]
          loops := w.loops ++ [w.connObjs.length]
          event := { w.event with conns := w.event.conns ++ [w.connObjs.length] } }
        w.connObjs.length := by
  simp [subscribeNewConn, EventDatagramConn.Init, World.conn?, World.setConn]

/-- The state `subscribeNewConn` builds when the network set-up fails: the
zero connection object is in the hub's slice all the same. -/
theorem subscribeNewConn_fail (w : World) :
    subscribeNewConn w false =
      .ret { w with
          connObjs := w.connObjs ++ [{ udp := false, wake := .nil, subs := [], handler := false }]
          event := { w.event with conns := w.event.conns ++ [w.connObjs.length] } }
        w.connObjs.length := by
  simp [subscribeNewConn, EventDatagramConn.Init]

theorem wf_newConn {w : World} (loops : List Nat) (ev : EventDatagram) (h : WellFormed w) :
    WellFormed
      { w with
        connObjs := w.connObjs ++ [{ udp := true, wake := .made, subs := [], handler := true }]
        loops := loops
        event := ev } := by
  have key : ∀ d dco,
      (w.connObjs ++ [({ udp := true, wake := .made, subs := [], handler := true } :
        EventDatagramConn)])[d]? = some dco →
      w.conn? d = some dco ∨
        dco = { udp := true, wake := .made, subs := [], handler := true } := by
    intro d dco hd
    by_cases h1 : d < w.connObjs.length
    · left
      simpa [World.conn?, List.getElem?_append_left, h1] using hd
    · right
      by_cases h2 : d = w.connObjs.length
      · simp [h2] at hd
        exact hd.symm
      · have : w.connObjs.length + 1 ≤ d := by omega
        simp [List.getElem?_eq_none, this] at hd
  constructor
  · intro d dco hd
    rcases key d dco hd with h1 | h1
    · exact h.connInit d dco h1
    · subst h1
      simp
  · intro d dco hd
    rcases key d dco hd with h1 | h1
    · exact h.subsNodup d dco h1
    · subst h1
      simp
  · intro d dco hd q hq
    rcases key d dco hd with h1 | h1
    · exact h.subsOwned d dco h1 q hq
    · subst h1
      simp at hq
  · intro q s hq
    have := h.subConn q s hq
    simp only [List.length_append, List.length_singleton]
    omega

theorem afterRemoval_wake_ne_nil (c : EventDatagramConn) (p : Nat) (h : c.wake ≠ .nil) :
    (afterRemoval c p).wake ≠ .nil := by
  simp only [afterRemoval]
  split
  · simp
  · exact h

theorem wf_afterRemoval {w : World} (conn p : Nat) (c : EventDatagramConn) (h : WellFormed w)
    (hc : w.conn? conn = some c) : WellFormed (w.setConn conn (afterRemoval c p)) := by
  obtain ⟨hu, hh, hk⟩ := h.connInit conn c hc
  refine wf_setConn conn c _ h hc hu hh (afterRemoval_wake_ne_nil c p hk) ?_ ?_
  · simp only [afterRemoval, removeFirst_eq_erase]
    exact (h.subsNodup conn c hc).erase p
  · intro q hq
    simp only [afterRemoval, removeFirst_eq_erase] at hq
    exact List.mem_of_mem_erase hq

theorem wf_callSync {w : World} (call : MiCall) (h : WellFormed w) :
    WellFormed (w.callSync call) :=
  wf_heaps (w := w) rfl rfl h

theorem Unsubscribe_wf {w : World} (p : Nat) (callOk : Bool) (h : WellFormed w)
    (hret : (Unsubscribe w p callOk).returned = true) :
    WellFormed (Unsubscribe w p callOk).world := by
  cases hs : w.sub? p with
  | none => simp [Unsubscribe, hs, Exit.returned] at hret
  | some s =>
    cases hc : w.conn? s.conn with
    | none => simp [Unsubscribe, connString, hs, hc, Exit.returned] at hret
    | some c =>
      obtain ⟨hu, hh, hk⟩ := h.connInit s.conn c hc
      by_cases hok : removeFirst p c.subs ≠ [] ∨ c.wake = .made
      · have hw2 := wf_afterRemoval s.conn p c h hc
        rw [Unsubscribe_eval w p s c callOk hs hc hu hh hok]
        cases hsub : s.subscribed <;> cases callOk <;> simp only [Exit.world, if_true, if_false,
          Bool.false_eq_true]
        · exact hw2
        · exact hw2
        · exact wf_callSync _ hw2
        · refine wf_setSub p s _ (wf_callSync _ hw2) ?_ rfl
          exact hs
      · simp only [not_or, not_not] at hok
        rw [Unsubscribe_panic w p s c callOk hs hc hu hok.1 hok.2] at hret
        simp [Exit.returned] at hret

theorem subscribeOn_eval (w : World) (conn : Nat) (c : EventDatagramConn) (ev : String)
    (notify : Nat) (callOk : Bool) (hc : w.conn? conn = some c) (hu : c.udp = true) :
    subscribeOn w conn ev notify callOk =
      if callOk then
        .ret (((attached w conn c
            { event := ev, conn := conn, notify := notify, subscribed := false }).callSync
            { method := "event_subscribe", event := ev, socket := conn, expire := 120 }).setSub
            w.subObjs.length
            { event := ev, conn := conn, notify := notify, subscribed := true })
          (some w.subObjs.length)
      else
        match Unsubscribe ((attached w conn c
            { event := ev, conn := conn, notify := notify, subscribed := false }).callSync
            { method := "event_subscribe", event := ev, socket := conn, expire := 120 })
            w.subObjs.length false with
        | .ret w5 _ => .ret w5 none
        | .panic w5 p => .panic w5 p := by
  have hlt := conn?_lt w conn c hc
  have hc2 : World.conn? { w with subObjs := w.subObjs ++
      [{ event := ev, conn := conn, notify := notify, subscribed := false }] } conn = some c := hc
  cases callOk <;>
    simp [subscribeOn, hc2, connString, conn?_setConn, hlt, hu, attached]

theorem subscribeOn_uninit (w : World) (conn : Nat) (c : EventDatagramConn) (ev : String)
    (notify : Nat) (callOk : Bool) (hc : w.conn? conn = some c) (hu : c.udp = false) :
    subscribeOn w conn ev notify callOk =
      .panic (attached w conn c
        { event := ev, conn := conn, notify := notify, subscribed := false }) .nilDeref := by
  have hlt := conn?_lt w conn c hc
  have hc2 : World.conn? { w with subObjs := w.subObjs ++
      [{ event := ev, conn := conn, notify := notify, subscribed := false }] } conn = some c := hc
  simp [subscribeOn, hc2, connString, conn?_setConn, hlt, hu, attached]

theorem subscribeOn_wf {w : World} (conn : Nat) (ev : String) (notify : Nat) (callOk : Bool)
    (h : WellFormed w) (hret : (subscribeOn w conn ev notify callOk).returned = true) :
    WellFormed (subscribeOn w conn ev notify callOk).world := by
  cases hc : w.conn? conn with
  | none =>
    have hc2 : World.conn? { w with subObjs := w.subObjs ++
      [{ event := ev, conn := conn, notify := notify, subscribed := false }] } conn = none := hc
    simp [subscribeOn, hc2, Exit.returned] at hret
  | some c =>
    obtain ⟨hu, _, _⟩ := h.connInit conn c hc
    have hw3 := wf_attached conn c
      { event := ev, conn := conn, notify := notify, subscribed := false } h hc rfl
    have hw4 : WellFormed ((attached w conn c
        { event := ev, conn := conn, notify := notify, subscribed := false }).callSync
        { method := "event_subscribe", event := ev, socket := conn, expire := 120 }) :=
      wf_callSync _ hw3
    rw [subscribeOn_eval w conn c ev notify callOk hc hu] at hret ⊢
    cases callOk with
    | true =>
      simp only [if_true, Exit.world]
      refine wf_setSub _ { event := ev, conn := conn, notify := notify, subscribed := false } _
        hw4 ?_ rfl
      simp [sub?_callSync, sub?_attached]
    | false =>
      simp only [Bool.false_eq_true, if_false] at hret ⊢
      have hU := Unsubscribe_wf (w := (attached w conn c
        { event := ev, conn := conn, notify := notify, subscribed := false }).callSync
        { method := "event_subscribe", event := ev, socket := conn, expire := 120 })
        w.subObjs.length false hw4
      revert hret hU
      cases Unsubscribe ((attached w conn c
        { event := ev, conn := conn, notify := notify, subscribed := false }).callSync
        { method := "event_subscribe", event := ev, socket := conn, expire := 120 })
        w.subObjs.length false with
      | ret w5 v =>
        intro _ hU
        exact hU rfl
      | panic w5 p =>
        intro hret _
        simp [Exit.returned] at hret

theorem Subscribe_wf {w : World} (ev : String) (notify : Nat) (netOk callOk : Bool)
    (h : WellFormed w) (hret : (Subscribe w ev notify netOk callOk).returned = true) :
    WellFormed (Subscribe w ev notify netOk callOk).world := by
  unfold Subscribe at hret ⊢
  cases hscan : subscribeScan w ev w.event.conns none with
  | error p => simp [hscan, Exit.returned] at hret
  | ok found =>
    cases found with
    | some c =>
      simp only [hscan] at hret ⊢
      exact subscribeOn_wf c ev notify callOk h hret
    | none =>
      simp only [hscan] at hret ⊢
      cases netOk with
      | true =>
        rw [subscribeNewConn_ok] at hret ⊢
        simp only at hret ⊢
        exact subscribeOn_wf _ ev notify callOk (wf_newConn _ _ h) hret
      | false =>
        rw [subscribeNewConn_fail] at hret
        simp only at hret
        rw [subscribeOn_uninit _ _ { udp := false, wake := .nil, subs := [], handler := false }
          ev notify callOk (by simp [World.conn?]) rfl] at hret
        simp [Exit.returned] at hret

theorem RemoveConn_heaps (w : World) (conn : Nat) :
    (RemoveConn w conn).world.subObjs = w.subObjs ∧
      (RemoveConn w conn).world.connObjs = w.connObjs := by
  unfold RemoveConn
  split
  · split <;> simp [Exit.world]
  · simp [Exit.world]

theorem waitForEvents_heaps (w : World) (conn : Nat) (dg : Datagram) :
    (waitForEvents w conn dg).world.subObjs = w.subObjs ∧
      (waitForEvents w conn dg).world.connObjs = w.connObjs := by
  have hR := RemoveConn_heaps w conn
  unfold waitForEvents
  cases hc : w.conn? conn with
  | none => simp [Exit.world]
  | some c =>
    simp only
    split
    · split
      · revert hR
        cases RemoveConn w conn with
        | ret w1 v => intro hR; simpa [Exit.world] using hR
        | panic w1 p => intro hR; simpa [Exit.world] using hR
      · simp [Exit.world]
    · cases dg with
      | readError => simp [Exit.world]
      | parseError => simp [Exit.world]
      | notification method =>
        simp only
        split <;> simp [Exit.world]

theorem step_wf {w : World} (op : Op) (h : WellFormed w) (hret : (step w op).2 = true) :
    WellFormed (step w op).1 := by
  cases op with
  | subscribe ev notify netOk callOk => exact Subscribe_wf ev notify netOk callOk h hret
  | unsubscribe sub callOk => exact Unsubscribe_wf sub callOk h hret
  | receive conn dg =>
    simp only [step]
    split
    · exact wf_heaps (waitForEvents_heaps w conn dg).1 (waitForEvents_heaps w conn dg).2 h
    · exact h

theorem reachable_wf {w : World} (h : Reachable w) : WellFormed w := by
  induction h with
  | init => exact wf_init
  | step op _ back ih => exact step_wf op ih back

theorem run_reachable {w : World} (ops : List Op) (h : Reachable w)
    (hret : (run w ops).2 = true) : Reachable (run w ops).1 := by
  induction ops generalizing w with
  | nil => exact h
  | cons op rest ih =>
    simp only [run] at hret ⊢
    have hstep := Reachable.step op h
    revert hret hstep
    cases hs : step w op with
    | mk w1 b =>
      cases b with
      | true =>
        intro hret hstep
        exact ih (hstep rfl) hret
      | false =>
        intro hret _
        simp at hret

theorem getSubscriptionLoop_mem (w : World) (ev : String) (l : List Nat) (cur : Option Nat)
    (p : Nat) (h : getSubscriptionLoop w ev l cur = .ok (some p)) : p ∈ l ∨ cur = some p := by
  induction l generalizing cur with
  | nil =>
    simp only [getSubscriptionLoop, Except.ok.injEq] at h
    exact Or.inr h
  | cons q rest ih =>
    simp only [getSubscriptionLoop] at h
    cases hq : w.sub? q with
    | none => simp [hq] at h
    | some s =>
      simp only [hq] at h
      by_cases hev : s.event = ev
      · simp [hev] at h
        simp [h]
      · simp only [hev, if_false] at h
        rcases ih (some q) h with h1 | h1
        · exact Or.inl (List.mem_cons_of_mem _ h1)
        · simp only [Option.some.injEq] at h1
          simp [h1]

theorem getSubscription_mem (w : World) (conn : Nat) (c : EventDatagramConn) (ev : String)
    (p : Nat) (hc : w.conn? conn = some c) (h : getSubscription w conn ev = .ok (some p)) :
    p ∈ c.subs := by
  simp only [getSubscription, hc] at h
  rcases getSubscriptionLoop_mem w ev c.subs none p h with h1 | h1
  · exact h1
  · simp at h1

/-- The connection object of `sub.conn` at the end of `Unsubscribe`, panic or
not: its list is the old one without `sub`. -/
theorem Unsubscribe_conn (w : World) (p : Nat) (s : EventDatagramSub) (c : EventDatagramConn)
    (callOk : Bool) (hs : w.sub? p = some s) (hc : w.conn? s.conn = some c)
    (hu : c.udp = true) (hh : c.handler = true) :
    ∃ c1, (Unsubscribe w p callOk).world.conn? s.conn = some c1 ∧
      c1.subs = removeFirst p c.subs := by
  have hlt := conn?_lt w s.conn c hc
  by_cases hok : removeFirst p c.subs ≠ [] ∨ c.wake = .made
  · rw [Unsubscribe_eval w p s c callOk hs hc hu hh hok]
    refine ⟨afterRemoval c p, ?_, rfl⟩
    cases s.subscribed <;> cases callOk <;>
      simp [Exit.world, conn?_setSub, conn?_callSync, conn?_setConn, hlt]
  · simp only [not_or, not_not] at hok
    rw [Unsubscribe_panic w p s c callOk hs hc hu hok.1 hok.2]
    exact ⟨{ c with subs := [] }, by simp [Exit.world, conn?_setConn, hlt], hok.1.symm⟩

/-! ## What the lookup, the scan and the rollback do in general -/

theorem getSubscriptionLoop_miss (w : World) (ev : String) (l : List Nat) (x : Nat)
    (h : ∀ p ∈ l, ∃ s, w.sub? p = some s ∧ s.event ≠ ev) :
    getSubscriptionLoop w ev l (some x) = .ok (some (l.getLastD x)) := by
  induction l generalizing x with
  | nil => rfl
  | cons p rest ih =>
    obtain ⟨s, hs, hne⟩ := h p (List.mem_cons_self p rest)
    simp only [getSubscriptionLoop, hs, hne, if_false, List.getLastD_cons]
    exact ih p (fun q hq => h q (List.mem_cons_of_mem p hq))

/-- What `getSubscription` returns on a miss: the last subscription of the
list, which is nil only when the list is empty. -/
theorem getSubscription_miss (w : World) (conn : Nat) (c : EventDatagramConn) (ev : String)
    (hc : w.conn? conn = some c)
    (h : ∀ p ∈ c.subs, ∃ s, w.sub? p = some s ∧ s.event ≠ ev) :
    getSubscription w conn ev = .ok c.subs.getLast? := by
  simp only [getSubscription, hc]
  cases hl : c.subs with
  | nil => rfl
  | cons p rest =>
    rw [hl] at h
    obtain ⟨s, hs, hsne⟩ := h p (by simp)
    simp only [getSubscriptionLoop, hs, hsne, if_false]
    rw [getSubscriptionLoop_miss w ev rest p (fun q hq => h q (by simp [hq]))]
    simp [List.getLast?_cons]

/-- What `getSubscription` returns on a hit: the first subscription of the
list that is for `ev`. -/
theorem getSubscription_hit (w : World) (conn : Nat) (c : EventDatagramConn) (ev : String)
    (pre post : List Nat) (p : Nat) (s : EventDatagramSub) (hc : w.conn? conn = some c)
    (hl : c.subs = pre ++ p :: post) (hs : w.sub? p = some s) (hev : s.event = ev)
    (hpre : ∀ q ∈ pre, ∃ t, w.sub? q = some t ∧ t.event ≠ ev) :
    getSubscription w conn ev = .ok (some p) := by
  have key : ∀ l : List Nat, (∀ q ∈ l, ∃ t, w.sub? q = some t ∧ t.event ≠ ev) →
      ∀ cur, getSubscriptionLoop w ev (l ++ p :: post) cur = .ok (some p) := by
    intro l
    induction l with
    | nil =>
      intro _ cur
      simp [getSubscriptionLoop, hs, hev]
    | cons q rest ih =>
      intro hl2 cur
      obtain ⟨t, ht, hne⟩ := hl2 q (List.mem_cons_self q rest)
      simp only [List.cons_append, getSubscriptionLoop, ht, hne, if_false]
      exact ih (fun r hr => hl2 r (List.mem_cons_of_mem q hr)) (some q)
  simp only [getSubscription, hc, hl]
  exact key pre hpre none

/-- What `getSubscription` returns on an empty list: nil. -/
theorem getSubscription_empty (w : World) (conn : Nat) (c : EventDatagramConn) (ev : String)
    (hc : w.conn? conn = some c) (hnil : c.subs = []) :
    getSubscription w conn ev = .ok none := by
  simp [getSubscription, hc, hnil, getSubscriptionLoop]

/-- The scan of `Subscribe` ends with `conn == nil` only on an empty slice. -/
theorem subscribeScan_none (w : World) (ev : String) (l : List Nat) (cur : Option Nat)
    (h : subscribeScan w ev l cur = .ok none) : l = [] ∧ cur = none := by
  induction l generalizing cur with
  | nil =>
    simp only [subscribeScan, Except.ok.injEq] at h
    exact ⟨rfl, h⟩
  | cons c rest ih =>
    simp only [subscribeScan] at h
    cases hg : getSubscription w c ev with
    | error p => simp [hg] at h
    | ok r =>
      cases r with
      | none => simp [hg] at h
      | some q =>
        simp only [hg] at h
        exact absurd (ih (some c) h).2 (by simp)

theorem Unsubscribe_conns {w : World} (sub : Nat) (callOk : Bool) (h : WellFormed w) :
    (Unsubscribe w sub callOk).world.event.conns = w.event.conns := by
  cases hs : w.sub? sub with
  | none => simp [Unsubscribe, hs, Exit.world]
  | some s =>
    cases hc : w.conn? s.conn with
    | none => simp [Unsubscribe, connString, hs, hc, Exit.world]
    | some c =>
      obtain ⟨hu, hh, _⟩ := h.connInit s.conn c hc
      by_cases hok : removeFirst sub c.subs ≠ [] ∨ c.wake = .made
      · rw [Unsubscribe_eval w sub s c callOk hs hc hu hh hok]
        cases s.subscribed <;> cases callOk <;>
          simp [Exit.world, World.setConn, World.callSync, World.setSub]
      · simp only [not_or, not_not] at hok
        rw [Unsubscribe_panic w sub s c callOk hs hc hu hok.1 hok.2]
        simp [Exit.world, World.setConn]

theorem subscribeOn_conns {w : World} (conn : Nat) (ev : String) (notify : Nat) (callOk : Bool)
    (h : WellFormed w) :
    (subscribeOn w conn ev notify callOk).world.event.conns = w.event.conns := by
  cases hc : w.conn? conn with
  | none =>
    have hc2 : World.conn? { w with subObjs := w.subObjs ++
      [{ event := ev, conn := conn, notify := notify, subscribed := false }] } conn = none := hc
    simp [subscribeOn, hc2, Exit.world]
  | some c =>
    obtain ⟨hu, _, _⟩ := h.connInit conn c hc
    have hw4 : WellFormed ((attached w conn c
        { event := ev, conn := conn, notify := notify, subscribed := false }).callSync
        { method := "event_subscribe", event := ev, socket := conn, expire := 120 }) :=
      wf_callSync _ (wf_attached conn c _ h hc rfl)
    rw [subscribeOn_eval w conn c ev notify callOk hc hu]
    cases callOk with
    | true => simp [Exit.world, World.setConn, World.callSync, World.setSub, attached]
    | false =>
      simp only [Bool.false_eq_true, if_false]
      have hU := Unsubscribe_conns w.subObjs.length false hw4
      revert hU
      cases Unsubscribe ((attached w conn c
        { event := ev, conn := conn, notify := notify, subscribed := false }).callSync
        { method := "event_subscribe", event := ev, socket := conn, expire := 120 })
        w.subObjs.length false with
      | ret w5 v =>
        intro hU
        simpa [Exit.world, World.setConn, World.callSync, attached] using hU
      | panic w5 p =>
        intro hU
        simpa [Exit.world, World.setConn, World.callSync, attached] using hU

/-- In a running program `Subscribe` creates a connection only on a hub that has none: when the
slice is not empty it is the same slice afterwards, whatever the event name
and whatever the existing connections hold. -/
theorem Subscribe_conns_of_nonempty (w : World) (hw : Reachable w) (ev : String) (notify : Nat)
    (netOk callOk : Bool) (h : w.event.conns ≠ []) :
    (Subscribe w ev notify netOk callOk).world.event.conns = w.event.conns := by
  unfold Subscribe
  cases hscan : subscribeScan w ev w.event.conns none with
  | error p => simp [Exit.world]
  | ok found =>
    cases found with
    | none => exact absurd (subscribeScan_none w ev _ _ hscan).1 h
    | some c =>
      simp only
      exact subscribeOn_conns c ev notify callOk (reachable_wf hw)

theorem removeFirst_append_fresh (x : Nat) (l : List Nat) (h : x ∉ l) :
    removeFirst x (l ++ [x]) = l := by
  induction l with
  | nil => simp [removeFirst]
  | cons y rest ih =>
    have hy : y ≠ x := fun e => h (by simp [e])
    have hr : x ∉ rest := fun m => h (List.mem_cons_of_mem y m)
    simp [removeFirst, hy, ih hr]

/-- The rollback of `Subscribe` on a chosen connection, when it returns: nil
is returned, the connection's list is what it was, its cancellation signal is
closed if that list is empty, and no other connection object changes. -/
theorem subscribeOn_fail_spec {w : World} (conn : Nat) (c : EventDatagramConn) (ev : String)
    (notify : Nat) (h : WellFormed w) (hc : w.conn? conn = some c)
    (hret : (subscribeOn w conn ev notify false).returned = true) :
    (subscribeOn w conn ev notify false).value = some none ∧
      ∀ d, (subscribeOn w conn ev notify false).world.conn? d =
        if conn = d then some { c with wake := if c.subs = [] then .closed else c.wake }
        else w.conn? d := by
  obtain ⟨hu, hh, _⟩ := h.connInit conn c hc
  have hlt := conn?_lt w conn c hc
  have hfresh : w.subObjs.length ∉ c.subs := by
    intro hmem
    obtain ⟨s1, hs1, _⟩ := h.subsOwned conn c hc _ hmem
    exact absurd (sub?_lt w _ s1 hs1) (lt_irrefl _)
  have hrm := removeFirst_append_fresh w.subObjs.length c.subs hfresh
  have hs4 : ((attached w conn c
      { event := ev, conn := conn, notify := notify, subscribed := false }).callSync
      { method := "event_subscribe", event := ev, socket := conn, expire := 120 }).sub?
      w.subObjs.length = some { event := ev, conn := conn, notify := notify, subscribed := false } := by
    simp [sub?_callSync, sub?_attached]
  have hc4 : ((attached w conn c
      { event := ev, conn := conn, notify := notify, subscribed := false }).callSync
      { method := "event_subscribe", event := ev, socket := conn, expire := 120 }).conn?
      conn = some { c with subs := c.subs ++ [w.subObjs.length] } := by
    simp [conn?_callSync, conn?_attached w conn c _ conn hc]
  rw [subscribeOn_eval w conn c ev notify false hc hu] at hret ⊢
  simp only [Bool.false_eq_true, if_false] at hret ⊢
  by_cases hok : c.subs ≠ [] ∨ c.wake = .made
  · have hok4 : removeFirst w.subObjs.length
        ({ c with subs := c.subs ++ [w.subObjs.length] } : EventDatagramConn).subs ≠ [] ∨
        ({ c with subs := c.subs ++ [w.subObjs.length] } : EventDatagramConn).wake = .made := by
      simpa [hrm] using hok
    rw [Unsubscribe_eval _ w.subObjs.length _ _ false hs4 hc4 hu hh hok4]
    simp only [Bool.false_eq_true, if_false, Exit.value, Exit.world, true_and]
    intro d
    rw [conn?_setConn]
    by_cases hd : conn = d
    · simp [hd, afterRemoval, hrm, World.callSync, attached, World.setConn]
      subst hd
      exact hlt
    · simp [hd, conn?_callSync, conn?_attached w conn c _ d hc]
  · simp only [not_or, not_not] at hok
    rw [Unsubscribe_panic _ w.subObjs.length _ _ false hs4 hc4 hu (by simpa [hrm] using hok.1)
      (by simpa using hok.2)] at hret
    simp [Exit.returned] at hret

/-- What holds of the rollback in every state of a running program: when the
control-plane call of `Subscribe` fails and `Subscribe` returns, it returns
nil, every connection object that existed keeps its list, and no connection's
list holds the subscription record the call created. -/
theorem failed_subscribe_rolls_back (w : World) (hw : Reachable w) (ev : String) (notify : Nat)
    (netOk : Bool) (hret : (Subscribe w ev notify netOk false).returned = true) :
    (Subscribe w ev notify netOk false).value = some none ∧
      (∀ d c, w.conn? d = some c →
        ∃ c1, (Subscribe w ev notify netOk false).world.conn? d = some c1 ∧ c1.subs = c.subs) ∧
      (∀ d c1, (Subscribe w ev notify netOk false).world.conn? d = some c1 →
        w.subObjs.length ∉ c1.subs) := by
  have h := reachable_wf hw
  have hfresh : ∀ d c, w.conn? d = some c → w.subObjs.length ∉ c.subs := by
    intro d c hc hmem
    obtain ⟨s1, hs1, _⟩ := h.subsOwned d c hc _ hmem
    exact absurd (sub?_lt w _ s1 hs1) (lt_irrefl _)
  unfold Subscribe at hret ⊢
  cases hscan : subscribeScan w ev w.event.conns none with
  | error p => simp [hscan, Exit.returned] at hret
  | ok found =>
    cases found with
    | some c0 =>
      simp only [hscan] at hret ⊢
      cases hc : w.conn? c0 with
      | none =>
        have hc2 : World.conn? { w with subObjs := w.subObjs ++
          [{ event := ev, conn := c0, notify := notify, subscribed := false }] } c0 = none := hc
        simp [subscribeOn, hc2, Exit.returned] at hret
      | some co =>
        obtain ⟨hv, hconn⟩ := subscribeOn_fail_spec c0 co ev notify h hc hret
        refine ⟨hv, ?_, ?_⟩
        · intro d c hd
          rw [hconn d]
          by_cases hcd : c0 = d
          · subst hcd
            rw [hc] at hd
            cases hd
            exact ⟨{ co with wake := if co.subs = [] then .closed else co.wake }, by simp, rfl⟩
          · exact ⟨c, by simp [hcd, hd], rfl⟩
        · intro d c1 hd
          rw [hconn d] at hd
          by_cases hcd : c0 = d
          · simp only [hcd, if_true, Option.some.injEq] at hd
            rw [← hd]
            exact hfresh c0 co hc
          · simp only [hcd, if_false] at hd
            exact hfresh d c1 hd
    | none =>
      simp only [hscan] at hret ⊢
      cases netOk with
      | false =>
        rw [subscribeNewConn_fail] at hret
        simp only at hret
        rw [subscribeOn_uninit _ _ { udp := false, wake := .nil, subs := [], handler := false }
          ev notify false (by simp [World.conn?]) rfl] at hret
        simp [Exit.returned] at hret
      | true =>
        rw [subscribeNewConn_ok] at hret ⊢
        simp only at hret ⊢
        have hnew : World.conn? { w with
            connObjs := w.connObjs ++ [{ udp := true, wake := .made, subs := [], handler := true }]
            loops := w.loops ++ [w.connObjs.length]
            event := { w.event with conns := w.event.conns ++ [w.connObjs.length] } }
            w.connObjs.length = some { udp := true, wake := .made, subs := [], handler := true } := by
          simp [World.conn?]
        obtain ⟨hv, hconn⟩ := subscribeOn_fail_spec w.connObjs.length _ ev notify
          (wf_newConn _ _ h) hnew hret
        refine ⟨hv, ?_, ?_⟩
        · intro d c hd
          have hdl := conn?_lt w d c hd
          rw [hconn d]
          have hne : w.connObjs.length ≠ d := by omega
          refine ⟨c, ?_, rfl⟩
          simp only [hne, if_false]
          simpa [World.conn?, List.getElem?_append_left, hdl] using hd
        · intro d c1 hd
          rw [hconn d] at hd
          by_cases hcd : w.connObjs.length = d
          · simp only [hcd, if_true, Option.some.injEq] at hd
            rw [← hd]
            simp
          · simp only [hcd, if_false] at hd
            have hdl : d < w.connObjs.length := by
              have := conn?_lt _ d c1 hd
              simp only [List.length_append, List.length_singleton] at this
              omega
            refine hfresh d c1 ?_
            simpa [World.conn?, List.getElem?_append_left, hdl] using hd

/-! ## When `Subscribe` returns -/

theorem Unsubscribe_connObjs_length {w : World} (sub : Nat) (callOk : Bool) (h : WellFormed w) :
    (Unsubscribe w sub callOk).world.connObjs.length = w.connObjs.length := by
  cases hs : w.sub? sub with
  | none => simp [Unsubscribe, hs, Exit.world]
  | some s =>
    cases hc : w.conn? s.conn with
    | none => simp [Unsubscribe, connString, hs, hc, Exit.world]
    | some c =>
      obtain ⟨hu, hh, _⟩ := h.connInit s.conn c hc
      by_cases hok : removeFirst sub c.subs ≠ [] ∨ c.wake = .made
      · rw [Unsubscribe_eval w sub s c callOk hs hc hu hh hok]
        cases s.subscribed <;> cases callOk <;>
          simp [Exit.world, World.setConn, World.callSync, World.setSub]
      · simp only [not_or, not_not] at hok
        rw [Unsubscribe_panic w sub s c callOk hs hc hu hok.1 hok.2]
        simp [Exit.world, World.setConn]

theorem subscribeOn_connObjs_length {w : World} (conn : Nat) (ev : String) (notify : Nat)
    (callOk : Bool) (h : WellFormed w) :
    (subscribeOn w conn ev notify callOk).world.connObjs.length = w.connObjs.length := by
  cases hc : w.conn? conn with
  | none =>
    have hc2 : World.conn? { w with subObjs := w.subObjs ++
      [{ event := ev, conn := conn, notify := notify, subscribed := false }] } conn = none := hc
    simp [subscribeOn, hc2, Exit.world]
  | some c =>
    obtain ⟨hu, _, _⟩ := h.connInit conn c hc
    have hw4 : WellFormed ((attached w conn c
        { event := ev, conn := conn, notify := notify, subscribed := false }).callSync
        { method := "event_subscribe", event := ev, socket := conn, expire := 120 }) :=
      wf_callSync _ (wf_attached conn c _ h hc rfl)
    rw [subscribeOn_eval w conn c ev notify callOk hc hu]
    cases callOk with
    | true => simp [Exit.world, World.setConn, World.callSync, World.setSub, attached]
    | false =>
      simp only [Bool.false_eq_true, if_false]
      have hU := Unsubscribe_connObjs_length w.subObjs.length false hw4
      revert hU
      cases Unsubscribe ((attached w conn c
        { event := ev, conn := conn, notify := notify, subscribed := false }).callSync
        { method := "event_subscribe", event := ev, socket := conn, expire := 120 })
        w.subObjs.length false with
      | ret w5 v =>
        intro hU
        simpa [Exit.world, World.setConn, World.callSync, attached] using hU
      | panic w5 p =>
        intro hU
        simpa [Exit.world, World.setConn, World.callSync, attached] using hU

theorem mem_removeFirst {x y : Nat} {l : List Nat} (h : y ∈ removeFirst x l) : y ∈ l := by
  rw [removeFirst_eq_erase] at h
  exact List.mem_of_mem_erase h

theorem RemoveConn_conns (w : World) (conn : Nat) :
    ∀ c ∈ (RemoveConn w conn).world.event.conns, c ∈ w.event.conns := by
  unfold RemoveConn
  split
  · split
    · simp [Exit.world]
    · intro c hmem
      simp only [Exit.world] at hmem
      exact mem_removeFirst hmem
  · simp [Exit.world]

theorem waitForEvents_conns (w : World) (conn : Nat) (dg : Datagram) :
    ∀ c ∈ (waitForEvents w conn dg).world.event.conns, c ∈ w.event.conns := by
  have hR := RemoveConn_conns w conn
  unfold waitForEvents
  cases hc : w.conn? conn with
  | none => simp [Exit.world]
  | some co =>
    simp only
    split
    · split
      · revert hR
        cases RemoveConn w conn with
        | ret w1 v => intro hR; simpa [Exit.world] using hR
        | panic w1 p => intro hR; simpa [Exit.world] using hR
      · simp [Exit.world]
    · cases dg with
      | readError => simp [Exit.world]
      | parseError => simp [Exit.world]
      | notification method =>
        simp only
        split <;> simp [Exit.world]

/-- Every pointer in the hub's slice names a connection object. -/
theorem reachable_conns_valid {w : World} (hw : Reachable w) :
    ∀ c ∈ w.event.conns, c < w.connObjs.length := by
  induction hw with
  | init => simp [World.init]
  | @step w op before back ih =>
    have h := reachable_wf before
    cases op with
    | unsubscribe sub callOk =>
      simp only [step]
      rw [Unsubscribe_conns sub callOk h, Unsubscribe_connObjs_length sub callOk h]
      exact ih
    | receive conn dg =>
      simp only [step]
      split
      · intro c hmem
        rw [(waitForEvents_heaps w conn dg).2]
        exact ih c (waitForEvents_conns w conn dg c hmem)
      · exact ih
    | subscribe ev notify netOk callOk =>
      simp only [step] at back ⊢
      unfold Subscribe at back ⊢
      cases hscan : subscribeScan w ev w.event.conns none with
      | error p => simp [hscan, Exit.returned] at back
      | ok found =>
        cases found with
        | some c0 =>
          simp only [hscan] at back ⊢
          rw [subscribeOn_conns c0 ev notify callOk h,
            subscribeOn_connObjs_length c0 ev notify callOk h]
          exact ih
        | none =>
          simp only [hscan] at back ⊢
          cases netOk with
          | false =>
            rw [subscribeNewConn_fail] at back
            simp only at back
            rw [subscribeOn_uninit _ _ { udp := false, wake := .nil, subs := [], handler := false }
              ev notify callOk (by simp [World.conn?]) rfl] at back
            simp [Exit.returned] at back
          | true =>
            rw [subscribeNewConn_ok]
            simp only
            rw [subscribeOn_conns _ ev notify callOk (wf_newConn _ _ h),
              subscribeOn_connObjs_length _ ev notify callOk (wf_newConn _ _ h)]
            intro c hmem
            simp only [List.mem_append, List.mem_singleton, List.length_append,
              List.length_singleton] at hmem ⊢
            rcases hmem with hmem | hmem
            · have := ih c hmem
              omega
            · omega

theorem getSubscriptionLoop_ok (w : World) (ev : String) (l : List Nat) (cur : Option Nat)
    (h : ∀ p ∈ l, ∃ s, w.sub? p = some s) :
    ∃ r, getSubscriptionLoop w ev l cur = .ok r := by
  induction l generalizing cur with
  | nil => exact ⟨cur, rfl⟩
  | cons p rest ih =>
    obtain ⟨s, hs⟩ := h p (List.mem_cons_self p rest)
    simp only [getSubscriptionLoop, hs]
    by_cases hev : s.event = ev
    · exact ⟨some p, by simp [hev]⟩
    · simp only [hev, if_false]
      exact ih (some p) (fun q hq => h q (List.mem_cons_of_mem p hq))

theorem subscribeScan_ok {w : World} (ev : String) (l : List Nat) (cur : Option Nat)
    (h : WellFormed w) (hl : ∀ c ∈ l, c < w.connObjs.length) :
    ∃ r, subscribeScan w ev l cur = .ok r ∧ (r = cur ∨ ∃ c ∈ l, r = some c) := by
  induction l generalizing cur with
  | nil => exact ⟨cur, rfl, Or.inl rfl⟩
  | cons c rest ih =>
    have hlt := hl c (List.mem_cons_self c rest)
    have hc : w.conn? c = some w.connObjs[c] := by simp [World.conn?, hlt]
    obtain ⟨r, hr⟩ := getSubscriptionLoop_ok w ev w.connObjs[c].subs none
      (fun p hp => by
        obtain ⟨s, hs, _⟩ := h.subsOwned c _ hc p hp
        exact ⟨s, hs⟩)
    simp only [subscribeScan, getSubscription, hc, hr]
    cases r with
    | none => exact ⟨some c, rfl, Or.inr ⟨c, List.mem_cons_self c rest, rfl⟩⟩
    | some q =>
      obtain ⟨r2, hr2, hor⟩ := ih (some c) (fun d hd => hl d (List.mem_cons_of_mem c hd))
      refine ⟨r2, hr2, Or.inr ?_⟩
      rcases hor with hor | ⟨d, hd, hor⟩
      · exact ⟨c, List.mem_cons_self c rest, hor⟩
      · exact ⟨d, List.mem_cons_of_mem c hd, hor⟩

theorem subscribeOn_returns {w : World} (conn : Nat) (c : EventDatagramConn) (ev : String)
    (notify : Nat) (callOk : Bool) (h : WellFormed w) (hc : w.conn? conn = some c)
    (hk : c.wake = .made) : (subscribeOn w conn ev notify callOk).returned = true := by
  obtain ⟨hu, hh, _⟩ := h.connInit conn c hc
  rw [subscribeOn_eval w conn c ev notify callOk hc hu]
  cases callOk with
  | true => simp [Exit.returned]
  | false =>
    have hs4 : ((attached w conn c
        { event := ev, conn := conn, notify := notify, subscribed := false }).callSync
        { method := "event_subscribe", event := ev, socket := conn, expire := 120 }).sub?
        w.subObjs.length =
          some { event := ev, conn := conn, notify := notify, subscribed := false } := by
      simp [sub?_callSync, sub?_attached]
    have hc4 : ((attached w conn c
        { event := ev, conn := conn, notify := notify, subscribed := false }).callSync
        { method := "event_subscribe", event := ev, socket := conn, expire := 120 }).conn?
        conn = some { c with subs := c.subs ++ [w.subObjs.length] } := by
      simp [conn?_callSync, conn?_attached w conn c _ conn hc]
    simp only [Bool.false_eq_true, if_false]
    rw [Unsubscribe_eval _ w.subObjs.length _ _ false hs4 hc4 hu hh (Or.inr hk)]
    simp [Exit.returned]

/-- In every state of a running program where no connection of the hub has its
cancellation signal closed, `Subscribe` returns when the network set-up of a
new connection works, whether the control-plane call succeeds or fails. -/
theorem Subscribe_returns (w : World) (hw : Reachable w) (ev : String) (notify : Nat)
    (callOk : Bool)
    (hopen : ∀ c ∈ w.event.conns, ∀ co, w.conn? c = some co → co.wake = .made) :
    (Subscribe w ev notify true callOk).returned = true := by
  have h := reachable_wf hw
  have hv := reachable_conns_valid hw
  obtain ⟨r, hr, hor⟩ := subscribeScan_ok ev w.event.conns none h hv
  unfold Subscribe
  simp only [hr]
  cases r with
  | some c0 =>
    simp only
    rcases hor with hor | ⟨d, hd, hor⟩
    · simp at hor
    · simp only [Option.some.injEq] at hor
      subst hor
      have hlt := hv c0 hd
      have hc : w.conn? c0 = some w.connObjs[c0] := by simp [World.conn?, hlt]
      exact subscribeOn_returns c0 _ ev notify callOk h hc (hopen c0 hd _ hc)
  | none =>
    simp only
    rw [subscribeNewConn_ok]
    simp only
    exact subscribeOn_returns _ { udp := true, wake := .made, subs := [], handler := true }
      ev notify callOk (wf_newConn _ _ h) (by simp [World.conn?]) rfl

/-! ## The claims -/

/-- C1, code at the failing input: a connection whose only subscription is for
"dialog" is asked for "other"; `getSubscription` returns the "dialog"
subscription instead of nil, and the receive loop starts its callback for the
"other" notification. -/
theorem getSubscription_miss_returns_last :
    connEvents (afterOps [.subscribe "dialog" 7 true true]) 0 = ["dialog"] ∧
    getSubscription (afterOps [.subscribe "dialog" 7 true true]) 0 "other" = .ok (some 0) ∧
    (waitForEvents (afterOps [.subscribe "dialog" 7 true true]) 0
      (.notification "other")).value = some (.notified 0 "other") :=
  ⟨by decide, rfl, by decide⟩

/-- C2, code at the failing input: two successful `Subscribe("dialog")` calls on
a fresh hub leave one connection whose list holds two subscriptions for
"dialog". -/
theorem same_event_twice_shares_list :
    (run World.init [.subscribe "dialog" 1 true true, .subscribe "dialog" 2 true true]).2
      = true ∧
    (afterOps [.subscribe "dialog" 1 true true, .subscribe "dialog" 2 true true]).event.conns
      = [0] ∧
    connEvents (afterOps [.subscribe "dialog" 1 true true, .subscribe "dialog" 2 true true]) 0
      = ["dialog", "dialog"] ∧
    ¬ (connEvents
      (afterOps [.subscribe "dialog" 1 true true, .subscribe "dialog" 2 true true]) 0).Nodup := by
  decide

/-- C3, code at every event name: after a successful `Subscribe(E)` on a fresh
hub, a second successful `Subscribe(E)` adds no connection and attaches the
second subscription to the connection of the first. -/
theorem second_subscribe_reuses_connection (E : String) (n1 n2 : Nat) :
    (Subscribe World.init E n1 true true).value = some (some 0) ∧
    (Subscribe World.init E n1 true true).world.event.conns = [0] ∧
    connEvents (Subscribe World.init E n1 true true).world 0 = [E] ∧
    (Subscribe (Subscribe World.init E n1 true true).world E n2 true true).value
      = some (some 1) ∧
    (Subscribe (Subscribe World.init E n1 true true).world E n2 true true).world.event.conns
      = [0] ∧
    connOf (Subscribe (Subscribe World.init E n1 true true).world E n2 true true).world 0
      = some 0 ∧
    connOf (Subscribe (Subscribe World.init E n1 true true).world E n2 true true).world 1
      = some 0 := by
  simp [Subscribe, subscribeScan, subscribeOn, subscribeNewConn, EventDatagramConn.Init,
    World.init, World.conn?, World.sub?, World.setConn, World.setSub, World.callSync, connString,
    getSubscription, getSubscriptionLoop, Exit.value, Exit.world, connOf, connEvents]

/-- C4, against the claim: after a successful `Subscribe("E")`, an
`Unsubscribe` whose control-plane call fails returns and leaves
`IsSubscribed()` true. -/
theorem unsubscribe_failed_call_keeps_flag :
    IsSubscribed (afterOps [.subscribe "E" 1 true true]) 0 = some true ∧
    (Unsubscribe (afterOps [.subscribe "E" 1 true true]) 0 false).returned = true ∧
    IsSubscribed (Unsubscribe (afterOps [.subscribe "E" 1 true true]) 0 false).world 0
      = some true := by
  decide

/-- C4 as amended: in every state of a running program, for every subscribed
subscription, when `Unsubscribe` returns `IsSubscribed()` is false if the
control-plane call succeeded and still true if it failed; and `Unsubscribe`
does return whenever the cancellation signal of the subscription's connection
is still open. -/
theorem unsubscribe_flag_follows_call (w : World) (hw : Reachable w) (sub : Nat)
    (s : EventDatagramSub) (hs : w.sub? sub = some s) (hsub : s.subscribed = true)
    (callOk : Bool) :
    ∃ c, w.conn? s.conn = some c ∧
      (c.wake = .made → (Unsubscribe w sub callOk).returned = true) ∧
      ((Unsubscribe w sub callOk).returned = true →
        IsSubscribed (Unsubscribe w sub callOk).world sub = some (!callOk)) := by
  have hwf := reachable_wf hw
  have hlt := hwf.subConn sub s hs
  have hsl := sub?_lt w sub s hs
  obtain ⟨c, hc⟩ : ∃ c, w.conn? s.conn = some c := by
    refine ⟨w.connObjs[s.conn], ?_⟩
    simp [World.conn?, hlt]
  obtain ⟨hu, hh, _⟩ := hwf.connInit s.conn c hc
  refine ⟨c, hc, ?_, ?_⟩
  · intro hk
    rw [Unsubscribe_eval w sub s c callOk hs hc hu hh (Or.inr hk)]
    cases callOk <;> simp [hsub, Exit.returned]
  · intro hret
    by_cases hok : removeFirst sub c.subs ≠ [] ∨ c.wake = .made
    · rw [Unsubscribe_eval w sub s c callOk hs hc hu hh hok]
      cases callOk
      · simp [hsub, Exit.world, IsSubscribed, sub?_callSync, sub?_setConn, hs]
      · simp [hsub, Exit.world, IsSubscribed, sub?_setSub]
        exact hsl
    · simp only [not_or, not_not] at hok
      rw [Unsubscribe_panic w sub s c callOk hs hc hu hok.1 hok.2] at hret
      simp [Exit.returned] at hret

/-- C4 as amended, at a concrete state: the hub after one successful
`Subscribe("E")`, then `Unsubscribe` with a successful control-plane call. -/
theorem unsubscribe_flag_follows_call_witness :
    Reachable (step World.init (.subscribe "E" 1 true true)).1 ∧
    (step World.init (.subscribe "E" 1 true true)).1.sub? 0 =
      some { event := "E", conn := 0, notify := 1, subscribed := true } ∧
    ∃ c, (step World.init (.subscribe "E" 1 true true)).1.conn? 0 = some c ∧
      (c.wake = .made →
        (Unsubscribe (step World.init (.subscribe "E" 1 true true)).1 0 true).returned = true) ∧
      ((Unsubscribe (step World.init (.subscribe "E" 1 true true)).1 0 true).returned = true →
        IsSubscribed (Unsubscribe (step World.init (.subscribe "E" 1 true true)).1 0 true).world 0
          = some (!true)) :=
  ⟨Reachable.step _ Reachable.init (by decide), by decide,
    unsubscribe_flag_follows_call (step World.init (.subscribe "E" 1 true true)).1
      (Reachable.step _ Reachable.init (by decide)) 0
      { event := "E", conn := 0, notify := 1, subscribed := true } (by decide) rfl true⟩

/-- C5, code at the failing input: `Subscribe("E")`, `Unsubscribe`, and
`Unsubscribe` again on the same subscription; the first `Unsubscribe` closes
the cancellation signal, the second finds the list empty again and closes the
closed signal, which panics. -/
theorem second_unsubscribe_closes_closed_wake :
    (run World.init [.subscribe "E" 1 true true, .unsubscribe 0 true]).2 = true ∧
    wakeOf (afterOps [.subscribe "E" 1 true true, .unsubscribe 0 true]) 0 = some .closed ∧
    (Unsubscribe (afterOps [.subscribe "E" 1 true true, .unsubscribe 0 true]) 0 true).panicKind
      = some .closeOfClosed := by
  decide

/-- C6, code at the failing input: `Subscribe("E")` on a fresh hub when the
network set-up of the new connection fails; the uninitialised connection is
appended to the hub's slice, the subscription is appended to its list, and the
call panics on `conn.String()` instead of returning nil. -/
theorem init_failure_keeps_connection :
    (Subscribe World.init "E" 1 false true).panicKind = some .nilDeref ∧
    (Subscribe World.init "E" 1 false true).value = none ∧
    (Subscribe World.init "E" 1 false true).world.event.conns = [0] ∧
    (Subscribe World.init "E" 1 false true).world.conn? 0
      = some { udp := false, wake := .nil, subs := [0], handler := false } ∧
    (Subscribe World.init "E" 1 false true).world.event.mi = [] := by
  decide

/-- C7, code at the failing input: `Subscribe("E")`, `Unsubscribe` of that only
subscription, then `Subscribe("F")` before the receive loop has run; the new
subscription is attached to the same connection, whose cancellation signal is
closed, and the next time that connection's receive loop checks the signal it
stops and takes the connection out of the hub's slice. -/
theorem subscribe_reuses_cancelled_connection :
    (run World.init [.subscribe "E" 1 true true, .unsubscribe 0 true,
      .subscribe "F" 2 true true]).2 = true ∧
    connOf (afterOps [.subscribe "E" 1 true true]) 0 = some 0 ∧
    subsOf (afterOps [.subscribe "E" 1 true true, .unsubscribe 0 true]) 0 = some [] ∧
    (afterOps [.subscribe "E" 1 true true, .unsubscribe 0 true]).event.conns = [0] ∧
    (Subscribe (afterOps [.subscribe "E" 1 true true, .unsubscribe 0 true]) "F" 2 true
      true).value = some (some 1) ∧
    connOf (afterOps [.subscribe "E" 1 true true, .unsubscribe 0 true,
      .subscribe "F" 2 true true]) 1 = some 0 ∧
    wakeOf (afterOps [.subscribe "E" 1 true true, .unsubscribe 0 true,
      .subscribe "F" 2 true true]) 0 = some .closed ∧
    (waitForEvents (afterOps [.subscribe "E" 1 true true, .unsubscribe 0 true,
      .subscribe "F" 2 true true]) 0 (.notification "F")).value = some .stopped ∧
    (afterOps [.subscribe "E" 1 true true, .unsubscribe 0 true, .subscribe "F" 2 true true,
      .receive 0 (.notification "F")]).event.conns = [] := by
  decide

/-- C8: in every state of a running program, for every connection and every
subscription in its list, `sub.Unsubscribe()` is `conn.Unsubscribe(sub)` on
that connection and leaves the connection's list equal to the old list without
that subscription (the others in their original order), the subscription is
not in it, no lookup on the connection returns it any more, whether the
control-plane call succeeds or fails; and the call returns whenever the
connection's cancellation signal is still open or other subscriptions
remain. -/
theorem unsubscribe_removes_locally (w : World) (hw : Reachable w) (conn : Nat)
    (c : EventDatagramConn) (hc : w.conn? conn = some c) (sub : Nat) (hmem : sub ∈ c.subs)
    (callOk : Bool) :
    Unsubscribe w sub callOk = EventDatagramConn.Unsubscribe w conn sub callOk ∧
    ∃ c1, (Unsubscribe w sub callOk).world.conn? conn = some c1 ∧
      c1.subs = c.subs.filter (fun q => q ≠ sub) ∧
      sub ∉ c1.subs ∧
      (∀ ev, getSubscription (Unsubscribe w sub callOk).world conn ev ≠ .ok (some sub)) ∧
      (c.wake = .made ∨ c.subs ≠ [sub] → (Unsubscribe w sub callOk).returned = true) := by
  have hwf := reachable_wf hw
  obtain ⟨s, hs, hsc⟩ := hwf.subsOwned conn c hc sub hmem
  subst hsc
  obtain ⟨hu, hh, _⟩ := hwf.connInit s.conn c hc
  have hnd := hwf.subsNodup s.conn c hc
  obtain ⟨c1, hc1, hsubs⟩ := Unsubscribe_conn w sub s c callOk hs hc hu hh
  have hfilter : c1.subs = c.subs.filter (fun q => q ≠ sub) := by
    rw [hsubs, removeFirst_eq_erase, hnd.erase_eq_filter]
    congr 1
    funext q
    by_cases hq : q = sub <;> simp [hq]
  have hnot : sub ∉ c1.subs := by
    rw [hfilter]
    simp
  refine ⟨by simp [Unsubscribe, connString, hs, hc, hu], c1, hc1, hfilter, hnot, ?_, ?_⟩
  · intro ev hget
    exact hnot (getSubscription_mem _ s.conn c1 ev sub hc1 hget)
  · intro hgood
    have hok : removeFirst sub c.subs ≠ [] ∨ c.wake = .made := by
      rcases hgood with h | h
      · exact Or.inr h
      · left
        intro hempty
        apply h
        rw [removeFirst_eq_erase] at hempty
        have hlen : c.subs.length - 1 = 0 := by
          rw [← List.length_erase_of_mem hmem, hempty]
          rfl
        cases hcs : c.subs with
        | nil =>
          rw [hcs] at hmem
          simp at hmem
        | cons x rest =>
          rw [hcs] at hmem hlen
          simp only [List.length_cons, Nat.add_sub_cancel, List.length_eq_zero] at hlen
          subst hlen
          simp only [List.mem_singleton] at hmem
          rw [hmem]
    rw [Unsubscribe_eval w sub s c callOk hs hc hu hh hok]
    cases s.subscribed <;> cases callOk <;> simp [Exit.returned]

/-- C8 at a concrete state: the hub after one successful `Subscribe("E")`,
then `Unsubscribe` with a failing control-plane call. -/
theorem unsubscribe_removes_locally_witness :
    Reachable (step World.init (.subscribe "E" 1 true true)).1 ∧
    (step World.init (.subscribe "E" 1 true true)).1.conn? 0 =
      some { udp := true, wake := .made, subs := [0], handler := true } ∧
    Unsubscribe (step World.init (.subscribe "E" 1 true true)).1 0 false =
      EventDatagramConn.Unsubscribe (step World.init (.subscribe "E" 1 true true)).1 0 0 false ∧
    ∃ c1, (Unsubscribe (step World.init (.subscribe "E" 1 true true)).1 0 false).world.conn? 0
        = some c1 ∧
      c1.subs = [0].filter (fun q => q ≠ 0) ∧
      0 ∉ c1.subs ∧
      (∀ ev, getSubscription (Unsubscribe (step World.init (.subscribe "E" 1 true true)).1 0
        false).world 0 ev ≠ .ok (some 0)) ∧
      (Chan.made = .made ∨ [0] ≠ [0] →
        (Unsubscribe (step World.init (.subscribe "E" 1 true true)).1 0 false).returned = true) :=
  ⟨Reachable.step _ Reachable.init (by decide), by decide,
    unsubscribe_removes_locally (step World.init (.subscribe "E" 1 true true)).1
      (Reachable.step _ Reachable.init (by decide)) 0
      { udp := true, wake := .made, subs := [0], handler := true } (by decide) 0 (by decide)
      false⟩

/-- C9, code at the failing input: `Subscribe("E")`, `Unsubscribe` of that only
subscription, then `Subscribe("F")` whose control-plane call fails before the
receive loop has run; the rollback empties the list of the reused connection
and closes its closed cancellation signal, so `Subscribe` panics instead of
returning nil. -/
theorem failed_subscribe_on_cancelled_connection_panics :
    (run World.init [.subscribe "E" 1 true true, .unsubscribe 0 true]).2 = true ∧
    (Subscribe (afterOps [.subscribe "E" 1 true true, .unsubscribe 0 true]) "F" 2 true
      false).panicKind = some .closeOfClosed ∧
    (Subscribe (afterOps [.subscribe "E" 1 true true, .unsubscribe 0 true]) "F" 2 true
      false).value = none := by
  decide

/-- C10, code at the failing input: after `Subscribe("A")` and `Subscribe("B")`
the only connection holds "A"; a third `Subscribe("A")` creates no connection
and attaches the subscription to that connection. -/
theorem subscribe_never_adds_second_connection :
    (run World.init [.subscribe "A" 1 true true, .subscribe "B" 2 true true]).2 = true ∧
    (afterOps [.subscribe "A" 1 true true, .subscribe "B" 2 true true]).event.conns = [0] ∧
    connEvents (afterOps [.subscribe "A" 1 true true, .subscribe "B" 2 true true]) 0
      = ["A", "B"] ∧
    (∀ c ∈ (afterOps [.subscribe "A" 1 true true, .subscribe "B" 2 true true]).event.conns,
      "A" ∈ connEvents (afterOps [.subscribe "A" 1 true true, .subscribe "B" 2 true true]) c) ∧
    (Subscribe (afterOps [.subscribe "A" 1 true true, .subscribe "B" 2 true true]) "A" 3 true
      true).value = some (some 2) ∧
    (afterOps [.subscribe "A" 1 true true, .subscribe "B" 2 true true,
      .subscribe "A" 3 true true]).event.conns = [0] ∧
    connEvents (afterOps [.subscribe "A" 1 true true, .subscribe "B" 2 true true,
      .subscribe "A" 3 true true]) 0 = ["A", "B", "A"] := by
  decide

end Event
